import Mathlib

/-!
Verification of the `migrate` schema-migration runner (sqlx.go).

The database visible to the migrator is modelled as a bookkeeping table
`migrations(id TEXT PRIMARY KEY)` — a list of applied migration ids —
together with an abstract world `W` standing for the rest of the schema
and data.  A migration step's apply/reverse action is a partial state
transformer on the world (`W → Option W`, with `none` an execution
error); an absent (`nil` in Go) action is `none` at the field level.
Failures of the external SQL driver (Beginx, Commit, the `db.Get`
lookup, the create-table statement, the bookkeeping DELETE) are supplied
by a fault oracle `Faults`, keyed by the step id where the call is made
per-step.  The INSERT of the bookkeeping row fails exactly when the id
is already present (primary-key violation), which is its only semantic
failure mode.

A transaction is a snapshot: statements executed through the transaction
become visible only at commit; a rollback (or a failed commit) discards
them.  A statement executed directly on the live connection (`db.Exec`)
takes effect immediately and is unaffected by the transaction's fate:
this is the one behavioural difference between the two historical
variants of `runMigration` in the repository.
-/

/-- Database state: whether the `migrations` table exists, its rows
(applied ids, in insertion order), and the abstract rest of the
database. -/
structure DB (W : Type) where
  hasTable : Bool
  tracker : List String
  world : W
deriving Repr, DecidableEq

/-- Fault oracle for the external SQL driver.  Per-step faults are keyed
by the step id the call is made for. -/
structure Faults where
  createFail : Bool
  lookupFail : String → Bool
  beginFail : String → Bool
  commitFail : String → Bool
  deleteFail : String → Bool

/-- Errors surfaced by the migrator, tagged with the phase and step id
(matching the `fmt.Errorf` wrapping in the source).  `nilAction` models
the Go runtime panic from invoking a nil function field. -/
inductive MErr where
  | createErr
  | lookupErr (id : String)
  | runErr (id : String)
  | rbErr (id : String)
  | nilAction (id : String)
deriving Repr, DecidableEq

/-- A migration step: unique id, apply action, optional reverse action
(`SqlxMigration` in the source; the older variant has no `Rollback`
field, its functions below simply ignore it). -/
structure SqlxMigration (W : Type) where
  ID : String
  Migrate : Option (W → Option W)
  Rollback : Option (W → Option W)

/-- The migrator: an ordered registry of steps.  The `Printf` hook of
the source is log-only and not modelled. -/
structure Sqlx (W : Type) where
  Migrations : List (SqlxMigration W)

/-- Result of a `Migrate`/`Rollback` call: final database state, the
ids for which the per-step executor was invoked (in invocation order),
and the error, if any. -/
structure MigrateRes (W : Type) where
  db : DB W
  ran : List String
  err : Option MErr
deriving Repr, DecidableEq

/-- `createMigrationTable`: `CREATE TABLE IF NOT EXISTS migrations (...)`.
Existing rows are preserved; `none` models the statement failing. -/
def createMigrationTable {W : Type} (f : Faults) (db : DB W) : Option (DB W) :=
  if f.createFail then none else some { db with hasTable := true }

/-- `runMigration` (newer variant, sqlx.go lines 103–125): begin a
transaction, `tx.Exec` the bookkeeping INSERT (fails iff the id is
already present), run the step's apply action on the transaction,
commit.  Any failure rolls the whole transaction back, so the database
is unchanged. -/
def runMigration {W : Type} (f : Faults) (db : DB W) (m : SqlxMigration W) :
    DB W × Option MErr :=
  if f.beginFail m.ID then (db, some (.runErr m.ID))
  else if m.ID ∈ db.tracker then
    (db, some (.runErr m.ID))
  else
    match m.Migrate with
    | none => (db, some (.nilAction m.ID))
    | some act =>
      match act db.world with
      | none => (db, some (.runErr m.ID))
      | some w =>
        if f.commitFail m.ID then (db, some (.runErr m.ID))
        else ({ db with tracker := db.tracker ++ [m.ID], world := w }, none)

/-- `runMigration` (older variant, sqlx.go lines 280–302): identical
except the bookkeeping INSERT is executed with `db.Exec` — on the live
connection, outside the transaction — so once the INSERT has succeeded
the tracker row persists even when the action fails, the commit fails,
or a nil action panics. -/
def runMigrationOld {W : Type} (f : Faults) (db : DB W) (m : SqlxMigration W) :
    DB W × Option MErr :=
  if f.beginFail m.ID then (db, some (.runErr m.ID))
  else if m.ID ∈ db.tracker then
    (db, some (.runErr m.ID))
  else
    let db1 := { db with tracker := db.tracker ++ [m.ID] }
    match m.Migrate with
    | none => (db1, some (.nilAction m.ID))
    | some act =>
      match act db.world with
      | none => (db1, some (.runErr m.ID))
      | some w =>
        if f.commitFail m.ID then (db1, some (.runErr m.ID))
        else ({ db with tracker := db.tracker ++ [m.ID], world := w }, none)

/-- `runRollback` (sqlx.go lines 127–149): begin a transaction,
`tx.Exec` the bookkeeping DELETE, run the step's reverse action,
commit.  Any failure rolls the whole transaction back. -/
def runRollback {W : Type} (f : Faults) (db : DB W) (m : SqlxMigration W) :
    DB W × Option MErr :=
  if f.beginFail m.ID then (db, some (.rbErr m.ID))
  else if f.deleteFail m.ID then (db, some (.rbErr m.ID))
  else
    match m.Rollback with
    | none => (db, some (.nilAction m.ID))
    | some act =>
      match act db.world with
      | none => (db, some (.rbErr m.ID))
      | some w =>
        if f.commitFail m.ID then (db, some (.rbErr m.ID))
        else
          ({ db with tracker := db.tracker.filter (fun x => x ≠ m.ID), world := w },
            none)

/-- The per-step loop of `Migrate` (sqlx.go lines 31–48): look the id up
in the tracker; not found → run the step, found → skip and continue,
lookup error → abort with it. -/
def migrateLoop {W : Type} (f : Faults) : DB W → List (SqlxMigration W) → MigrateRes W
  | db, [] => ⟨db, [], none⟩
  | db, m :: rest =>
    if f.lookupFail m.ID then ⟨db, [], some (.lookupErr m.ID)⟩
    else if m.ID ∈ db.tracker then migrateLoop f db rest
    else
      let res := runMigration f db m
      match res.2 with
      | none =>
        let r := migrateLoop f res.1 rest
        ⟨r.db, m.ID :: r.ran, r.err⟩
      | some e => ⟨res.1, [m.ID], some e⟩

/-- `Sqlx.Migrate` (newer variant, sqlx.go lines 23–50): ensure the
tracker table exists, then walk the registry in declared order. -/
def Sqlx.Migrate {W : Type} (s : Sqlx W) (f : Faults) (db : DB W) : MigrateRes W :=
  match createMigrationTable f db with
  | none => ⟨db, [], some .createErr⟩
  | some db0 => migrateLoop f db0 s.Migrations

/-- The per-step loop of the older variant's `Migrate`: the same loop
but invoking the older `runMigration`. -/
def migrateLoopOld {W : Type} (f : Faults) : DB W → List (SqlxMigration W) → MigrateRes W
  | db, [] => ⟨db, [], none⟩
  | db, m :: rest =>
    if f.lookupFail m.ID then ⟨db, [], some (.lookupErr m.ID)⟩
    else if m.ID ∈ db.tracker then migrateLoopOld f db rest
    else
      let res := runMigrationOld f db m
      match res.2 with
      | none =>
        let r := migrateLoopOld f res.1 rest
        ⟨r.db, m.ID :: r.ran, r.err⟩
      | some e => ⟨res.1, [m.ID], some e⟩

/-- `Sqlx.Migrate` of the older variant (sqlx.go lines 235–262). -/
def Sqlx.MigrateOld {W : Type} (s : Sqlx W) (f : Faults) (db : DB W) : MigrateRes W :=
  match createMigrationTable f db with
  | none => ⟨db, [], some .createErr⟩
  | some db0 => migrateLoopOld f db0 s.Migrations

/-- The per-step loop of `Rollback` (sqlx.go lines 61–83): a step with
no reverse action is skipped before any lookup; otherwise not found →
skip, found → run the reverse executor, lookup error → abort. -/
def rollbackLoop {W : Type} (f : Faults) : DB W → List (SqlxMigration W) → MigrateRes W
  | db, [] => ⟨db, [], none⟩
  | db, m :: rest =>
    match m.Rollback with
    | none => rollbackLoop f db rest
    | some _ =>
      if f.lookupFail m.ID then ⟨db, [], some (.lookupErr m.ID)⟩
      else if m.ID ∈ db.tracker then
        let res := runRollback f db m
        match res.2 with
        | none =>
          let r := rollbackLoop f res.1 rest
          ⟨r.db, m.ID :: r.ran, r.err⟩
        | some e => ⟨res.1, [m.ID], some e⟩
      else rollbackLoop f db rest

/-- `Sqlx.Rollback` (sqlx.go lines 53–85): ensure the tracker table
exists, then walk the registry in reverse declared order (`for i :=
len-1; i >= 0; i--`). -/
def Sqlx.Rollback {W : Type} (s : Sqlx W) (f : Faults) (db : DB W) : MigrateRes W :=
  match createMigrationTable f db with
  | none => ⟨db, [], some .createErr⟩
  | some db0 => rollbackLoop f db0 s.Migrations.reverse

/-- `SqlxQueryMigration` (sqlx.go lines 165–182).  `execQ` is the
external SQL engine: executing a query text against a world.  An empty
query text yields a nil action. -/
def SqlxQueryMigration {W : Type} (execQ : String → W → Option W)
    (id upQuery downQuery : String) : SqlxMigration W :=
  let queryFn : String → Option (W → Option W) := fun query =>
    if query = "" then none
    else some (fun w => execQ query w)
  { ID := id, Migrate := queryFn upQuery, Rollback := queryFn downQuery }

/-- `SqlxFileMigration` (sqlx.go lines 185–212).  `fs` is the file
system: path to contents, `none` for an open/read failure.  The result
is `none` when construction panics (a read failed); an empty path yields
a nil action without consulting `fs`. -/
def SqlxFileMigration {W : Type} (execQ : String → W → Option W)
    (fs : String → Option String) (id upFile downFile : String) :
    Option (SqlxMigration W) :=
  let fileFn : String → Option (Option (W → Option W)) := fun filename =>
    if filename = "" then some none
    else
      match fs filename with
      | none => none
      | some fileBytes => some (some (fun w => execQ fileBytes w))
  match fileFn upFile with
  | none => none
  | some up =>
    match fileFn downFile with
    | none => none
    | some down => some { ID := id, Migrate := up, Rollback := down }

/-- Fault-free oracle, for concrete runs. -/
def fNone : Faults :=
  { createFail := false, lookupFail := fun _ => false, beginFail := fun _ => false,
    commitFail := fun _ => false, deleteFail := fun _ => false }

/-- A fresh database with no tracker table yet. -/
def dbEmptyEx : DB Nat := { hasTable := false, tracker := [], world := 0 }

/-- A database whose tracker table exists and is empty. -/
def dbEx : DB Nat := { hasTable := true, tracker := [], world := 0 }

/-- A step whose apply action succeeds (increments the world). -/
def stepInc : SqlxMigration Nat :=
  { ID := "001", Migrate := some (fun n => some (n + 1)),
    Rollback := some (fun n => some (n + 10)) }

/-- A step whose apply action always fails, with no reverse action. -/
def stepFail : SqlxMigration Nat :=
  { ID := "001", Migrate := some (fun _ => none), Rollback := none }

/-- A registry holding only the failing step. -/
def sqlxFailEx : Sqlx Nat := { Migrations := [stepFail] }

/-- A registry holding only the succeeding step. -/
def sqlxIncEx : Sqlx Nat := { Migrations := [stepInc] }

/-- A second succeeding step, distinct id. -/
def stepInc3 : SqlxMigration Nat :=
  { ID := "003", Migrate := some (fun n => some (n + 100)),
    Rollback := some (fun n => some (n + 1000)) }

/-- A failing step under the id "002". -/
def stepFail2 : SqlxMigration Nat :=
  { ID := "002", Migrate := some (fun _ => none), Rollback := none }

/-- A step whose reverse action fails. -/
def stepRbFail : SqlxMigration Nat :=
  { ID := "001", Migrate := some (fun n => some (n + 1)),
    Rollback := some (fun _ => none) }

/-- Registry that succeeds on "001", fails on "002", never reaches "003". -/
def sqlxAbortEx : Sqlx Nat := { Migrations := [stepInc, stepFail2, stepInc3] }

/-- The same registry truncated after the failing step. -/
def sqlxAbortEx2 : Sqlx Nat := { Migrations := [stepInc, stepFail2] }

/-- A two-step succeeding registry. -/
def sqlxTwoEx : Sqlx Nat := { Migrations := [stepInc, stepInc3] }

/-- A database with "001" applied. -/
def dbApplied : DB Nat := { hasTable := true, tracker := ["001"], world := 1 }

/-- A concrete SQL engine for witnesses: executing a query adds its
length to the world. -/
def qexecEx : String → Nat → Option Nat := fun q n => some (n + q.length)

/-- A concrete file system for witnesses. -/
def fsEx : String → Option String := fun p => if p = "up.sql" then some ("CREATE") else none

/-- An oracle whose every lookup faults, to exhibit that some code paths
never perform a lookup. -/
def fAllLookupFail : Faults :=
  { createFail := false, lookupFail := fun _ => true, beginFail := fun _ => false,
    commitFail := fun _ => false, deleteFail := fun _ => false }

/-- Any failing run of the newer `runMigration` leaves the database
unchanged (the transaction was rolled back or never committed). -/
theorem runMigration_err_state {W : Type} (f : Faults) (db : DB W)
    (m : SqlxMigration W) (h : (runMigration f db m).2 ≠ none) :
    (runMigration f db m).1 = db := by
  unfold runMigration at *
  by_cases hb : f.beginFail m.ID
  · simp [hb]
  · by_cases hmem : m.ID ∈ db.tracker
    · simp [hb, hmem]
    · cases hM : m.Migrate with
      | none => simp [hb, hmem, hM]
      | some act =>
        cases hA : act db.world with
        | none => simp [hb, hmem, hM, hA]
        | some w =>
          by_cases hc : f.commitFail m.ID
          · simp [hb, hmem, hM, hA, hc]
          · simp [hb, hmem, hM, hA, hc] at h

/-- A successful run of the newer `runMigration` ran the apply action on
the current world and committed the new world together with the
bookkeeping row appended to the tracker. -/
theorem runMigration_ok {W : Type} (f : Faults) (db : DB W)
    (m : SqlxMigration W) (h : (runMigration f db m).2 = none) :
    ∃ act w, m.Migrate = some act ∧ act db.world = some w ∧ m.ID ∉ db.tracker ∧
      (runMigration f db m).1 =
        { hasTable := db.hasTable, tracker := db.tracker ++ [m.ID], world := w } := by
  unfold runMigration at *
  by_cases hb : f.beginFail m.ID
  · simp [hb] at h
  · by_cases hmem : m.ID ∈ db.tracker
    · simp [hb, hmem] at h
    · cases hM : m.Migrate with
      | none => simp [hb, hmem, hM] at h
      | some act =>
        cases hA : act db.world with
        | none => simp [hb, hmem, hM, hA] at h
        | some w =>
          by_cases hc : f.commitFail m.ID
          · simp [hb, hmem, hM, hA, hc] at h
          · exact ⟨act, w, rfl, hA, hmem, by simp [hb, hmem, hM, hA, hc]⟩

/-- `runMigration` never touches the table-existence flag. -/
theorem runMigration_hasTable {W : Type} (f : Faults) (db : DB W)
    (m : SqlxMigration W) : (runMigration f db m).1.hasTable = db.hasTable := by
  unfold runMigration
  by_cases hb : f.beginFail m.ID
  · simp [hb]
  · by_cases hmem : m.ID ∈ db.tracker
    · simp [hb, hmem]
    · cases hM : m.Migrate with
      | none => simp [hb, hmem, hM]
      | some act =>
        cases hA : act db.world with
        | none => simp [hb, hmem, hM, hA]
        | some w =>
          by_cases hc : f.commitFail m.ID <;> simp [hb, hmem, hM, hA, hc]

/-- `runMigration` only ever appends to the tracker. -/
theorem runMigration_tracker_mono {W : Type} (f : Faults) (db : DB W)
    (m : SqlxMigration W) {x : String} (hx : x ∈ db.tracker) :
    x ∈ (runMigration f db m).1.tracker := by
  unfold runMigration
  by_cases hb : f.beginFail m.ID
  · simpa [hb] using hx
  · by_cases hmem : m.ID ∈ db.tracker
    · simpa [hb, hmem] using hx
    · cases hM : m.Migrate with
      | none => simpa [hb, hmem, hM] using hx
      | some act =>
        cases hA : act db.world with
        | none => simpa [hb, hmem, hM, hA] using hx
        | some w =>
          by_cases hc : f.commitFail m.ID
          · simpa [hb, hmem, hM, hA, hc] using hx
          · simp [hb, hmem, hM, hA, hc, List.mem_append]
            exact Or.inl hx

/-- Unfolding: the loop on the empty registry does nothing. -/
theorem migrateLoop_nil {W : Type} (f : Faults) (db : DB W) :
    migrateLoop f db [] = ⟨db, [], none⟩ := rfl

/-- Unfolding: a failing lookup aborts the loop with that error. -/
theorem migrateLoop_cons_lookupFail {W : Type} (f : Faults) (db : DB W)
    (m : SqlxMigration W) (rest : List (SqlxMigration W))
    (h : f.lookupFail m.ID) :
    migrateLoop f db (m :: rest) = ⟨db, [], some (.lookupErr m.ID)⟩ := by
  simp [migrateLoop, h]

/-- Unfolding: an id found in the tracker is skipped and the loop
continues. -/
theorem migrateLoop_cons_found {W : Type} (f : Faults) (db : DB W)
    (m : SqlxMigration W) (rest : List (SqlxMigration W))
    (h1 : ¬ f.lookupFail m.ID) (h2 : m.ID ∈ db.tracker) :
    migrateLoop f db (m :: rest) = migrateLoop f db rest := by
  simp [migrateLoop, h1, h2]

/-- Unfolding: an absent id is run; on success the loop continues from
the committed state. -/
theorem migrateLoop_cons_run_ok {W : Type} (f : Faults) (db : DB W)
    (m : SqlxMigration W) (rest : List (SqlxMigration W))
    (h1 : ¬ f.lookupFail m.ID) (h2 : m.ID ∉ db.tracker)
    (h3 : (runMigration f db m).2 = none) :
    migrateLoop f db (m :: rest) =
      ⟨(migrateLoop f (runMigration f db m).1 rest).db,
        m.ID :: (migrateLoop f (runMigration f db m).1 rest).ran,
        (migrateLoop f (runMigration f db m).1 rest).err⟩ := by
  simp [migrateLoop, h1, h2, h3]

/-- Unfolding: an absent id is run; on failure the loop stops with the
step's error. -/
theorem migrateLoop_cons_run_err {W : Type} (f : Faults) (db : DB W)
    (m : SqlxMigration W) (rest : List (SqlxMigration W)) (e : MErr)
    (h1 : ¬ f.lookupFail m.ID) (h2 : m.ID ∉ db.tracker)
    (h3 : (runMigration f db m).2 = some e) :
    migrateLoop f db (m :: rest) = ⟨(runMigration f db m).1, [m.ID], some e⟩ := by
  simp [migrateLoop, h1, h2, h3]

/-- A successful loop over a prefix composes with the loop over the
remainder. -/
theorem migrateLoop_append_ok {W : Type} (f : Faults)
    (l1 l2 : List (SqlxMigration W)) (db db1 : DB W) (ran1 : List String)
    (h : migrateLoop f db l1 = ⟨db1, ran1, none⟩) :
    migrateLoop f db (l1 ++ l2) =
      ⟨(migrateLoop f db1 l2).db, ran1 ++ (migrateLoop f db1 l2).ran,
        (migrateLoop f db1 l2).err⟩ := by
  induction l1 generalizing db ran1 with
  | nil =>
    rw [migrateLoop_nil] at h
    cases h
    simp
  | cons m rest ih =>
    by_cases h1 : f.lookupFail m.ID
    · rw [migrateLoop_cons_lookupFail f db m rest h1] at h
      cases h
    · by_cases h2 : m.ID ∈ db.tracker
      · rw [migrateLoop_cons_found f db m rest h1 h2] at h
        rw [List.cons_append, migrateLoop_cons_found f db m (rest ++ l2) h1 h2]
        exact ih db ran1 h
      · cases h3 : (runMigration f db m).2 with
        | none =>
          rw [migrateLoop_cons_run_ok f db m rest h1 h2 h3] at h
          rw [List.cons_append, migrateLoop_cons_run_ok f db m (rest ++ l2) h1 h2 h3]
          rcases hmk : migrateLoop f (runMigration f db m).1 rest with ⟨rdb, rran, rerr⟩
          rw [hmk] at h
          cases h
          have := ih (runMigration f db m).1 rran hmk
          rw [this]
          simp
        | some e =>
          rw [migrateLoop_cons_run_err f db m rest e h1 h2 h3] at h
          cases h

/-- The loop only ever appends to the tracker: every id present before
is present after, whatever the outcome. -/
theorem migrateLoop_tracker_mono {W : Type} (f : Faults)
    (l : List (SqlxMigration W)) (db : DB W) {x : String} (hx : x ∈ db.tracker) :
    x ∈ (migrateLoop f db l).db.tracker := by
  induction l generalizing db with
  | nil => simpa [migrateLoop_nil] using hx
  | cons m rest ih =>
    by_cases h1 : f.lookupFail m.ID
    · simpa [migrateLoop_cons_lookupFail f db m rest h1] using hx
    · by_cases h2 : m.ID ∈ db.tracker
      · rw [migrateLoop_cons_found f db m rest h1 h2]
        exact ih db hx
      · cases h3 : (runMigration f db m).2 with
        | none =>
          rw [migrateLoop_cons_run_ok f db m rest h1 h2 h3]
          exact ih (runMigration f db m).1 (runMigration_tracker_mono f db m hx)
        | some e =>
          rw [migrateLoop_cons_run_err f db m rest e h1 h2 h3]
          exact runMigration_tracker_mono f db m hx

/-- The loop never touches the table-existence flag. -/
theorem migrateLoop_hasTable {W : Type} (f : Faults)
    (l : List (SqlxMigration W)) (db : DB W) :
    (migrateLoop f db l).db.hasTable = db.hasTable := by
  induction l generalizing db with
  | nil => simp [migrateLoop_nil]
  | cons m rest ih =>
    by_cases h1 : f.lookupFail m.ID
    · simp [migrateLoop_cons_lookupFail f db m rest h1]
    · by_cases h2 : m.ID ∈ db.tracker
      · rw [migrateLoop_cons_found f db m rest h1 h2]
        exact ih db
      · cases h3 : (runMigration f db m).2 with
        | none =>
          rw [migrateLoop_cons_run_ok f db m rest h1 h2 h3]
          rw [show (⟨(migrateLoop f (runMigration f db m).1 rest).db, _, _⟩ : MigrateRes W).db
              = (migrateLoop f (runMigration f db m).1 rest).db from rfl]
          rw [ih (runMigration f db m).1, runMigration_hasTable]
        | some e =>
          rw [migrateLoop_cons_run_err f db m rest e h1 h2 h3]
          exact runMigration_hasTable f db m

/-- After a successful loop, every registry id was looked up without a
driver fault and is present in the final tracker. -/
theorem migrateLoop_ok_mem {W : Type} (f : Faults)
    (l : List (SqlxMigration W)) (db : DB W)
    (h : (migrateLoop f db l).err = none) :
    ∀ m ∈ l, ¬ f.lookupFail m.ID ∧ m.ID ∈ (migrateLoop f db l).db.tracker := by
  induction l generalizing db with
  | nil => simp
  | cons m rest ih =>
    by_cases h1 : f.lookupFail m.ID
    · rw [migrateLoop_cons_lookupFail f db m rest h1] at h
      cases h
    · by_cases h2 : m.ID ∈ db.tracker
      · rw [migrateLoop_cons_found f db m rest h1 h2] at h ⊢
        intro m' hm'
        rcases List.mem_cons.mp hm' with hm' | hm'
        · subst hm'
          exact ⟨h1, migrateLoop_tracker_mono f rest db h2⟩
        · exact ih db h m' hm'
      · cases h3 : (runMigration f db m).2 with
        | none =>
          rw [migrateLoop_cons_run_ok f db m rest h1 h2 h3] at h ⊢
          have hmem : m.ID ∈ (runMigration f db m).1.tracker := by
            rcases runMigration_ok f db m h3 with ⟨act, w, _, _, _, hst⟩
            rw [hst]
            simp
          intro m' hm'
          rcases List.mem_cons.mp hm' with hm' | hm'
          · subst hm'
            exact ⟨h1, migrateLoop_tracker_mono f rest _ hmem⟩
          · exact ih _ h m' hm'
        | some e =>
          rw [migrateLoop_cons_run_err f db m rest e h1 h2 h3] at h
          cases h

/-- After a successful loop, every id the executor was invoked for is
present in the final tracker. -/
theorem migrateLoop_ran_tracker {W : Type} (f : Faults)
    (l : List (SqlxMigration W)) (db : DB W)
    (h : (migrateLoop f db l).err = none) :
    ∀ id ∈ (migrateLoop f db l).ran, id ∈ (migrateLoop f db l).db.tracker := by
  induction l generalizing db with
  | nil => simp [migrateLoop_nil]
  | cons m rest ih =>
    by_cases h1 : f.lookupFail m.ID
    · rw [migrateLoop_cons_lookupFail f db m rest h1] at h
      cases h
    · by_cases h2 : m.ID ∈ db.tracker
      · rw [migrateLoop_cons_found f db m rest h1 h2] at h ⊢
        exact ih db h
      · cases h3 : (runMigration f db m).2 with
        | none =>
          rw [migrateLoop_cons_run_ok f db m rest h1 h2 h3] at h ⊢
          have hmem : m.ID ∈ (runMigration f db m).1.tracker := by
            rcases runMigration_ok f db m h3 with ⟨act, w, _, _, _, hst⟩
            rw [hst]
            simp
          intro id hid
          rcases List.mem_cons.mp hid with hid | hid
          · subst hid
            exact migrateLoop_tracker_mono f rest (runMigration f db m).1 hmem
          · exact ih (runMigration f db m).1 h id hid
        | some e =>
          rw [migrateLoop_cons_run_err f db m rest e h1 h2 h3] at h
          cases h

/-- When every registry id is already tracked and no lookup faults, the
loop is a no-op: nothing runs, the state is untouched. -/
theorem migrateLoop_skip_all {W : Type} (f : Faults)
    (l : List (SqlxMigration W)) (db : DB W)
    (h : ∀ m ∈ l, ¬ f.lookupFail m.ID ∧ m.ID ∈ db.tracker) :
    migrateLoop f db l = ⟨db, [], none⟩ := by
  induction l with
  | nil => rfl
  | cons m rest ih =>
    rcases h m (List.mem_cons_self m rest) with ⟨h1, h2⟩
    rw [migrateLoop_cons_found f db m rest h1 h2]
    exact ih fun m' hm' => h m' (List.mem_cons_of_mem m hm')

/-- Whenever either variant of `runMigration` succeeds, the two agree
completely (same final state, same outcome): the divergence is confined
to failures after the bookkeeping INSERT. -/
theorem runMigrationOld_eq_of_ok {W : Type} (f : Faults) (db : DB W)
    (m : SqlxMigration W)
    (h : (runMigrationOld f db m).2 = none ∨ (runMigration f db m).2 = none) :
    runMigrationOld f db m = runMigration f db m := by
  by_cases hb : f.beginFail m.ID
  · simp [runMigration, runMigrationOld, hb]
  · by_cases hmem : m.ID ∈ db.tracker
    · simp [runMigration, runMigrationOld, hb, hmem]
    · cases hM : m.Migrate with
      | none => simp [runMigration, runMigrationOld, hb, hmem, hM] at h
      | some act =>
        cases hA : act db.world with
        | none => simp [runMigration, runMigrationOld, hb, hmem, hM, hA] at h
        | some w =>
          by_cases hc : f.commitFail m.ID
          · simp [runMigration, runMigrationOld, hb, hmem, hM, hA, hc] at h
          · simp [runMigration, runMigrationOld, hb, hmem, hM, hA, hc]

/-- When the newer loop succeeds, the older loop takes the same path and
produces the same result. -/
theorem migrateLoopOld_eq_of_ok {W : Type} (f : Faults)
    (l : List (SqlxMigration W)) (db : DB W)
    (h : (migrateLoop f db l).err = none) :
    migrateLoopOld f db l = migrateLoop f db l := by
  induction l generalizing db with
  | nil => rfl
  | cons m rest ih =>
    by_cases h1 : f.lookupFail m.ID
    · rw [migrateLoop_cons_lookupFail f db m rest h1] at h
      cases h
    · by_cases h2 : m.ID ∈ db.tracker
      · rw [migrateLoop_cons_found f db m rest h1 h2] at h
        rw [migrateLoop_cons_found f db m rest h1 h2]
        have hl : migrateLoopOld f db (m :: rest) = migrateLoopOld f db rest := by
          simp [migrateLoopOld, h1, h2]
        rw [hl]
        exact ih db h
      · cases h3 : (runMigration f db m).2 with
        | none =>
          rw [migrateLoop_cons_run_ok f db m rest h1 h2 h3] at h
          have h' : (migrateLoop f (runMigration f db m).1 rest).err = none := h
          have heq := runMigrationOld_eq_of_ok f db m (Or.inr h3)
          have hl : migrateLoopOld f db (m :: rest) =
              ⟨(migrateLoopOld f (runMigration f db m).1 rest).db,
                m.ID :: (migrateLoopOld f (runMigration f db m).1 rest).ran,
                (migrateLoopOld f (runMigration f db m).1 rest).err⟩ := by
            simp [migrateLoopOld, h1, h2, heq, h3]
          rw [hl, migrateLoop_cons_run_ok f db m rest h1 h2 h3, ih _ h']
        | some e =>
          rw [migrateLoop_cons_run_err f db m rest e h1 h2 h3] at h
          cases h

/-- When the newer `Migrate` succeeds, the older variant's `Migrate`
produces the identical result. -/
theorem MigrateOld_eq_of_ok {W : Type} (s : Sqlx W) (f : Faults) (db : DB W)
    (h : (s.Migrate f db).err = none) :
    s.MigrateOld f db = s.Migrate f db := by
  simp only [Sqlx.Migrate, Sqlx.MigrateOld, createMigrationTable] at h ⊢
  by_cases hc : f.createFail
  · simp [hc] at h
  · simp [hc] at h ⊢
    exact migrateLoopOld_eq_of_ok f s.Migrations _ h

/-- Any failing run of `runRollback` leaves the database unchanged: the
bookkeeping DELETE and the reverse action were rolled back together. -/
theorem runRollback_err_state {W : Type} (f : Faults) (db : DB W)
    (m : SqlxMigration W) (h : (runRollback f db m).2 ≠ none) :
    (runRollback f db m).1 = db := by
  unfold runRollback at *
  by_cases hb : f.beginFail m.ID
  · simp [hb]
  · by_cases hd : f.deleteFail m.ID
    · simp [hb, hd]
    · cases hR : m.Rollback with
      | none => simp [hb, hd, hR]
      | some act =>
        cases hA : act db.world with
        | none => simp [hb, hd, hR, hA]
        | some w =>
          by_cases hc : f.commitFail m.ID
          · simp [hb, hd, hR, hA, hc]
          · simp [hb, hd, hR, hA, hc] at h

/-- A successful `runRollback` ran the reverse action on the current
world and committed the new world together with the bookkeeping row
removed from the tracker. -/
theorem runRollback_ok {W : Type} (f : Faults) (db : DB W)
    (m : SqlxMigration W) (h : (runRollback f db m).2 = none) :
    ∃ act w, m.Rollback = some act ∧ act db.world = some w ∧
      (runRollback f db m).1 =
        { hasTable := db.hasTable,
          tracker := db.tracker.filter (fun x => x ≠ m.ID), world := w } := by
  unfold runRollback at *
  by_cases hb : f.beginFail m.ID
  · simp [hb] at h
  · by_cases hd : f.deleteFail m.ID
    · simp [hb, hd] at h
    · cases hR : m.Rollback with
      | none => simp [hb, hd, hR] at h
      | some act =>
        cases hA : act db.world with
        | none => simp [hb, hd, hR, hA] at h
        | some w =>
          by_cases hc : f.commitFail m.ID
          · simp [hb, hd, hR, hA, hc] at h
          · exact ⟨act, w, rfl, hA, by simp [hb, hd, hR, hA, hc]⟩

/-- Unfolding: the rollback loop on the empty list does nothing. -/
theorem rollbackLoop_nil {W : Type} (f : Faults) (db : DB W) :
    rollbackLoop f db [] = ⟨db, [], none⟩ := rfl

/-- Unfolding: a step without a reverse action is skipped before any
lookup — the fault oracle for its lookup is never consulted. -/
theorem rollbackLoop_cons_noRev {W : Type} (f : Faults) (db : DB W)
    (m : SqlxMigration W) (rest : List (SqlxMigration W))
    (hR : m.Rollback = none) :
    rollbackLoop f db (m :: rest) = rollbackLoop f db rest := by
  simp [rollbackLoop, hR]

/-- Unfolding: a failing lookup aborts the rollback loop. -/
theorem rollbackLoop_cons_lookupFail {W : Type} (f : Faults) (db : DB W)
    (m : SqlxMigration W) (rest : List (SqlxMigration W))
    (act : W → Option W) (hR : m.Rollback = some act)
    (h1 : f.lookupFail m.ID) :
    rollbackLoop f db (m :: rest) = ⟨db, [], some (.lookupErr m.ID)⟩ := by
  simp [rollbackLoop, hR, h1]

/-- Unfolding: a step whose id is not tracked is skipped. -/
theorem rollbackLoop_cons_notFound {W : Type} (f : Faults) (db : DB W)
    (m : SqlxMigration W) (rest : List (SqlxMigration W))
    (act : W → Option W) (hR : m.Rollback = some act)
    (h1 : ¬ f.lookupFail m.ID) (h2 : m.ID ∉ db.tracker) :
    rollbackLoop f db (m :: rest) = rollbackLoop f db rest := by
  simp [rollbackLoop, hR, h1, h2]

/-- Unfolding: a tracked step is reversed; on success the loop continues
from the committed state. -/
theorem rollbackLoop_cons_run_ok {W : Type} (f : Faults) (db : DB W)
    (m : SqlxMigration W) (rest : List (SqlxMigration W))
    (act : W → Option W) (hR : m.Rollback = some act)
    (h1 : ¬ f.lookupFail m.ID) (h2 : m.ID ∈ db.tracker)
    (h3 : (runRollback f db m).2 = none) :
    rollbackLoop f db (m :: rest) =
      ⟨(rollbackLoop f (runRollback f db m).1 rest).db,
        m.ID :: (rollbackLoop f (runRollback f db m).1 rest).ran,
        (rollbackLoop f (runRollback f db m).1 rest).err⟩ := by
  simp [rollbackLoop, hR, h1, h2, h3]

/-- Unfolding: a tracked step whose reversal fails stops the loop with
the step's error. -/
theorem rollbackLoop_cons_run_err {W : Type} (f : Faults) (db : DB W)
    (m : SqlxMigration W) (rest : List (SqlxMigration W)) (e : MErr)
    (act : W → Option W) (hR : m.Rollback = some act)
    (h1 : ¬ f.lookupFail m.ID) (h2 : m.ID ∈ db.tracker)
    (h3 : (runRollback f db m).2 = some e) :
    rollbackLoop f db (m :: rest) = ⟨(runRollback f db m).1, [m.ID], some e⟩ := by
  simp [rollbackLoop, hR, h1, h2, h3]

/-- C1: `Executor.RunApply` (`runMigration`, newer variant) performs the
bookkeeping insert of the step's id and the step's apply action inside
one transaction: if the insert, the action, or the commit fails, the
transaction is rolled back and the database is unchanged — neither the
tracker row nor the action's effects are visible; on success the
appended tracker row and the action's new world become visible
together. -/
theorem C1_runMigration_transactional {W : Type} (f : Faults) (db : DB W)
    (m : SqlxMigration W) :
    ((runMigration f db m).2 ≠ none → (runMigration f db m).1 = db) ∧
    ((runMigration f db m).2 = none →
      ∃ act w, m.Migrate = some act ∧ act db.world = some w ∧ m.ID ∉ db.tracker ∧
        (runMigration f db m).1 =
          { hasTable := db.hasTable, tracker := db.tracker ++ [m.ID], world := w }) :=
  ⟨runMigration_err_state f db m, runMigration_ok f db m⟩

/-- Witness for C1: the step whose apply action fails leaves the
database exactly as it was. -/
theorem C1_runMigration_transactional_witness :
    (runMigration fNone dbEx stepFail).2 ≠ none ∧
    (runMigration fNone dbEx stepFail).1 = dbEx :=
  ⟨by decide, (C1_runMigration_transactional fNone dbEx stepFail).1 (by decide)⟩

/-- C2 counterexample: the two historical variants are not behaviourally
equivalent.  For the one-step registry whose apply action fails, the
older variant's bookkeeping INSERT (made with `db.Exec`, outside the
transaction) survives the rollback, so its `runMigration` and `Migrate`
leave the tracker row behind while the newer variant leaves the
database unchanged. -/
theorem C2_variants_not_equivalent :
    runMigrationOld fNone dbEx stepFail ≠ runMigration fNone dbEx stepFail ∧
    sqlxFailEx.MigrateOld fNone dbEmptyEx ≠ sqlxFailEx.Migrate fNone dbEmptyEx := by
  decide

/-- C2 amended: the two variants agree whenever either per-step run
succeeds — in particular on every successful `Migrate` the older
variant produces the identical result; they diverge only on runs that
fail after the bookkeeping insert succeeded, where the older variant
leaves the tracker row behind. -/
theorem C2_variants_agree_on_success {W : Type} :
    (∀ (f : Faults) (db : DB W) (m : SqlxMigration W),
      ((runMigrationOld f db m).2 = none ∨ (runMigration f db m).2 = none) →
      runMigrationOld f db m = runMigration f db m) ∧
    (∀ (s : Sqlx W) (f : Faults) (db : DB W),
      (s.Migrate f db).err = none → s.MigrateOld f db = s.Migrate f db) :=
  ⟨runMigrationOld_eq_of_ok, MigrateOld_eq_of_ok⟩

/-- Witness for C2 amended: on the succeeding one-step registry the two
variants produce the identical result. -/
theorem C2_variants_agree_on_success_witness :
    (sqlxIncEx.Migrate fNone dbEmptyEx).err = none ∧
    sqlxIncEx.MigrateOld fNone dbEmptyEx = sqlxIncEx.Migrate fNone dbEmptyEx :=
  ⟨by decide,
    (@C2_variants_agree_on_success Nat).2 sqlxIncEx fNone dbEmptyEx (by decide)⟩

/-- C3: `Migrate` first ensures the tracker table exists (aborting with
that error before any step is visited when creation fails, and leaving
the table present otherwise), then walks the registry in declared order:
a failing lookup aborts immediately with that error, an id found in the
tracker is skipped and iteration continues, and an absent id is run —
it heads the invocation trace of the remaining loop. -/
theorem C3_Migrate_structure {W : Type} (s : Sqlx W) (f : Faults) (db : DB W) :
    (f.createFail → s.Migrate f db = ⟨db, [], some .createErr⟩) ∧
    (¬ f.createFail →
      s.Migrate f db = migrateLoop f { db with hasTable := true } s.Migrations ∧
      (s.Migrate f db).db.hasTable = true) ∧
    (∀ (m : SqlxMigration W) (rest : List (SqlxMigration W)) (d : DB W),
      (f.lookupFail m.ID →
        migrateLoop f d (m :: rest) = ⟨d, [], some (.lookupErr m.ID)⟩) ∧
      (¬ f.lookupFail m.ID → m.ID ∈ d.tracker →
        migrateLoop f d (m :: rest) = migrateLoop f d rest) ∧
      (¬ f.lookupFail m.ID → m.ID ∉ d.tracker →
        (migrateLoop f d (m :: rest)).ran.head? = some m.ID)) := by
  refine ⟨?_, ?_, ?_⟩
  · intro hc
    simp [Sqlx.Migrate, createMigrationTable, hc]
  · intro hc
    have hM : s.Migrate f db = migrateLoop f { db with hasTable := true } s.Migrations := by
      simp [Sqlx.Migrate, createMigrationTable, hc]
    refine ⟨hM, ?_⟩
    rw [hM, migrateLoop_hasTable]
  · intro m rest d
    refine ⟨fun h1 => migrateLoop_cons_lookupFail f d m rest h1,
      fun h1 h2 => migrateLoop_cons_found f d m rest h1 h2, fun h1 h2 => ?_⟩
    cases h3 : (runMigration f d m).2 with
    | none =>
      rw [migrateLoop_cons_run_ok f d m rest h1 h2 h3]
      rfl
    | some e =>
      rw [migrateLoop_cons_run_err f d m rest e h1 h2 h3]
      rfl

/-- Witness for C3: on the fault-free run the table is created and the
body equals the loop from the table-bearing state. -/
theorem C3_Migrate_structure_witness :
    ¬ fNone.createFail ∧
    sqlxIncEx.Migrate fNone dbEmptyEx =
      migrateLoop fNone { dbEmptyEx with hasTable := true } sqlxIncEx.Migrations ∧
    (sqlxIncEx.Migrate fNone dbEmptyEx).db.hasTable = true :=
  ⟨by decide, (C3_Migrate_structure sqlxIncEx fNone dbEmptyEx).2.1 (by decide)⟩

/-- C4: if a step's run fails during `Migrate`, the apply sequence
aborts at that step: the result is the same whatever registry entries
follow the failing step (none of them is examined or run), the step's
failure is returned to the caller, the final state is the state reached
after the successful prefix, and the tracker rows of the steps run
before the failure are present in it. -/
theorem C4_Migrate_aborts_on_failure {W : Type} (s s' : Sqlx W) (f : Faults)
    (pre rest rest' : List (SqlxMigration W)) (m : SqlxMigration W)
    (db db1 : DB W) (ran1 : List String) (e : MErr)
    (hs : s.Migrations = pre ++ m :: rest)
    (hs' : s'.Migrations = pre ++ m :: rest')
    (hc : ¬ f.createFail)
    (hpre : migrateLoop f { db with hasTable := true } pre = ⟨db1, ran1, none⟩)
    (h1 : ¬ f.lookupFail m.ID) (h2 : m.ID ∉ db1.tracker)
    (h3 : (runMigration f db1 m).2 = some e) :
    s.Migrate f db = ⟨db1, ran1 ++ [m.ID], some e⟩ ∧
    s'.Migrate f db = s.Migrate f db ∧
    ∀ id ∈ ran1, id ∈ db1.tracker := by
  have hrm : (runMigration f db1 m).1 = db1 :=
    runMigration_err_state f db1 m (by rw [h3]; exact Option.some_ne_none e)
  have key : ∀ (l : List (SqlxMigration W)),
      migrateLoop f { db with hasTable := true } (pre ++ m :: l) =
        ⟨db1, ran1 ++ [m.ID], some e⟩ := by
    intro l
    rw [migrateLoop_append_ok f pre (m :: l) _ db1 ran1 hpre]
    rw [migrateLoop_cons_run_err f db1 m l e h1 h2 h3, hrm]
  have hMig : ∀ (t : Sqlx W) (l : List (SqlxMigration W)),
      t.Migrations = pre ++ m :: l →
      t.Migrate f db = ⟨db1, ran1 ++ [m.ID], some e⟩ := by
    intro t l hl
    have : t.Migrate f db = migrateLoop f { db with hasTable := true } t.Migrations := by
      simp [Sqlx.Migrate, createMigrationTable, hc]
    rw [this, hl, key l]
  refine ⟨hMig s rest hs, ?_, ?_⟩
  · rw [hMig s rest hs, hMig s' rest' hs']
  · intro id hid
    have herr : (migrateLoop f { db with hasTable := true } pre).err = none := by
      rw [hpre]
    have := migrateLoop_ran_tracker f pre { db with hasTable := true } herr id
    rw [hpre] at this
    exact this hid

/-- Witness for C4: "001" commits, "002" fails, "003" is never reached;
the truncated registry gives the identical result. -/
theorem C4_Migrate_aborts_on_failure_witness :
    sqlxAbortEx.Migrate fNone dbEmptyEx =
      ⟨{ hasTable := true, tracker := ["001"], world := 1 }, ["001", "002"],
        some (.runErr ("002"))⟩ ∧
    sqlxAbortEx2.Migrate fNone dbEmptyEx = sqlxAbortEx.Migrate fNone dbEmptyEx := by
  have h := C4_Migrate_aborts_on_failure sqlxAbortEx sqlxAbortEx2 fNone
    [stepInc] [stepInc3] [] stepFail2 dbEmptyEx
    { hasTable := true, tracker := ["001"], world := 1 } ["001"] (.runErr ("002"))
    rfl rfl (by decide) (by decide) (by decide) (by decide) (by decide)
  exact ⟨h.1, h.2.1⟩

/-- C5: `Rollback` walks the registry in reverse declared order; a step
with no reverse action is skipped before any tracker lookup (even a
faulting lookup oracle cannot abort it) and iteration continues;
otherwise its id is looked up: a failing lookup aborts the remaining
sequence with that error, an untracked id is skipped and iteration
continues, and a tracked id has its reverse executor run — it heads the
invocation trace of the remaining loop. -/
theorem C5_Rollback_structure {W : Type} (s : Sqlx W) (f : Faults) (db : DB W) :
    (f.createFail → s.Rollback f db = ⟨db, [], some .createErr⟩) ∧
    (¬ f.createFail →
      s.Rollback f db =
        rollbackLoop f { db with hasTable := true } s.Migrations.reverse) ∧
    (∀ (m : SqlxMigration W) (rest : List (SqlxMigration W)) (d : DB W),
      (m.Rollback = none →
        rollbackLoop f d (m :: rest) = rollbackLoop f d rest) ∧
      (∀ act, m.Rollback = some act → f.lookupFail m.ID →
        rollbackLoop f d (m :: rest) = ⟨d, [], some (.lookupErr m.ID)⟩) ∧
      (∀ act, m.Rollback = some act → ¬ f.lookupFail m.ID → m.ID ∉ d.tracker →
        rollbackLoop f d (m :: rest) = rollbackLoop f d rest) ∧
      (∀ act, m.Rollback = some act → ¬ f.lookupFail m.ID → m.ID ∈ d.tracker →
        (rollbackLoop f d (m :: rest)).ran.head? = some m.ID)) := by
  refine ⟨?_, ?_, ?_⟩
  · intro hc
    simp [Sqlx.Rollback, createMigrationTable, hc]
  · intro hc
    simp [Sqlx.Rollback, createMigrationTable, hc]
  · intro m rest d
    refine ⟨fun hR => rollbackLoop_cons_noRev f d m rest hR,
      fun act hR h1 => rollbackLoop_cons_lookupFail f d m rest act hR h1,
      fun act hR h1 h2 => rollbackLoop_cons_notFound f d m rest act hR h1 h2,
      fun act hR h1 h2 => ?_⟩
    cases h3 : (runRollback f d m).2 with
    | none =>
      rw [rollbackLoop_cons_run_ok f d m rest act hR h1 h2 h3]
      rfl
    | some e =>
      rw [rollbackLoop_cons_run_err f d m rest e act hR h1 h2 h3]
      rfl

/-- Witness for C5: a step with no reverse action is skipped even
though its tracker lookup would fault. -/
theorem C5_Rollback_structure_witness :
    stepFail.Rollback = none ∧
    rollbackLoop fAllLookupFail dbEx [stepFail] = rollbackLoop fAllLookupFail dbEx [] :=
  ⟨rfl,
    ((C5_Rollback_structure sqlxFailEx fAllLookupFail dbEx).2.2 stepFail [] dbEx).1 rfl⟩

/-- C6: `Executor.RunReverse` (`runRollback`) deletes the tracker row
for the step's id and invokes the reverse action inside one transaction:
if either fails (or the transaction cannot begin or commit) the whole
transaction is rolled back, the database is unchanged and a tracked step
stays applied; it commits only when both succeed, removing the row and
installing the reversed world together. -/
theorem C6_runRollback_transactional {W : Type} (f : Faults) (db : DB W)
    (m : SqlxMigration W) :
    ((runRollback f db m).2 ≠ none → (runRollback f db m).1 = db) ∧
    ((runRollback f db m).2 ≠ none → m.ID ∈ db.tracker →
      m.ID ∈ (runRollback f db m).1.tracker) ∧
    ((runRollback f db m).2 = none →
      ∃ act w, m.Rollback = some act ∧ act db.world = some w ∧
        (runRollback f db m).1 =
          { hasTable := db.hasTable,
            tracker := db.tracker.filter (fun x => x ≠ m.ID), world := w }) :=
  ⟨runRollback_err_state f db m,
    fun h hm => by rw [runRollback_err_state f db m h]; exact hm,
    runRollback_ok f db m⟩

/-- Witness for C6: the step whose reverse action fails leaves the
database unchanged, its tracker row still present. -/
theorem C6_runRollback_transactional_witness :
    (runRollback fNone dbApplied stepRbFail).2 ≠ none ∧
    (runRollback fNone dbApplied stepRbFail).1 = dbApplied :=
  ⟨by decide, (C6_runRollback_transactional fNone dbApplied stepRbFail).1 (by decide)⟩

/-- C7: `Migrate` is idempotent — if a call succeeds, an immediately
repeated call on the resulting database finds every registry id already
tracked, invokes no step's executor (empty invocation trace), leaves the
database (tracker included) unchanged, and succeeds. -/
theorem C7_Migrate_idempotent {W : Type} (s : Sqlx W) (f : Faults)
    (db db1 : DB W) (ran : List String)
    (h : s.Migrate f db = ⟨db1, ran, none⟩) :
    s.Migrate f db1 = ⟨db1, [], none⟩ := by
  by_cases hc : f.createFail
  · simp [Sqlx.Migrate, createMigrationTable, hc] at h
  · have hM : s.Migrate f db = migrateLoop f { db with hasTable := true } s.Migrations := by
      simp [Sqlx.Migrate, createMigrationTable, hc]
    rw [hM] at h
    have herr : (migrateLoop f { db with hasTable := true } s.Migrations).err = none := by
      rw [h]
    have hdb : (migrateLoop f { db with hasTable := true } s.Migrations).db = db1 := by
      rw [h]
    have hmem := migrateLoop_ok_mem f s.Migrations { db with hasTable := true } herr
    have hT : db1.hasTable = true := by
      rw [← hdb, migrateLoop_hasTable]
    have hM2 : s.Migrate f db1 =
        migrateLoop f { db1 with hasTable := true } s.Migrations := by
      simp [Sqlx.Migrate, createMigrationTable, hc]
    have hid : ({ db1 with hasTable := true } : DB W) = db1 := by
      cases db1
      simp_all
    rw [hM2, hid]
    apply migrateLoop_skip_all
    intro m hm
    rcases hmem m hm with ⟨hl, hmem'⟩
    rw [hdb] at hmem'
    exact ⟨hl, hmem'⟩

/-- Witness for C7: the two-step registry applies both steps once; the
repeated call runs nothing and changes nothing. -/
theorem C7_Migrate_idempotent_witness :
    sqlxTwoEx.Migrate fNone dbEmptyEx =
      ⟨{ hasTable := true, tracker := ["001", "003"], world := 101 },
        ["001", "003"], none⟩ ∧
    sqlxTwoEx.Migrate fNone { hasTable := true, tracker := ["001", "003"], world := 101 } =
      ⟨{ hasTable := true, tracker := ["001", "003"], world := 101 }, [], none⟩ :=
  ⟨by decide,
    C7_Migrate_idempotent sqlxTwoEx fNone dbEmptyEx
      { hasTable := true, tracker := ["001", "003"], world := 101 }
      ["001", "003"] (by decide)⟩

/-- C8: `SqlxQueryMigration` yields a step whose apply (resp. reverse)
action is nil exactly when the up (resp. down) query text is empty; a
non-empty text yields the action that executes that literal text
verbatim against the supplied transaction. -/
theorem C8_SqlxQueryMigration_spec {W : Type} (execQ : String → W → Option W)
    (id up down : String) :
    (SqlxQueryMigration execQ id up down).ID = id ∧
    ((SqlxQueryMigration execQ id up down).Migrate = none ↔ up = "") ∧
    ((SqlxQueryMigration execQ id up down).Rollback = none ↔ down = "") ∧
    (up ≠ "" →
      (SqlxQueryMigration execQ id up down).Migrate = some (fun w => execQ up w)) ∧
    (down ≠ "" →
      (SqlxQueryMigration execQ id up down).Rollback = some (fun w => execQ down w)) := by
  by_cases hu : up = "" <;> by_cases hd : down = "" <;>
    simp [SqlxQueryMigration, hu, hd]

/-- Witness for C8: a non-empty up text yields the action executing it,
an empty down text yields no reverse action. -/
theorem C8_SqlxQueryMigration_spec_witness :
    ("CREATE" : String) ≠ "" ∧
    (SqlxQueryMigration qexecEx ("001") ("CREATE") ("")).Migrate =
      some (fun w => qexecEx ("CREATE") w) :=
  ⟨by decide,
    (C8_SqlxQueryMigration_spec qexecEx ("001") ("CREATE") ("")).2.2.2.1 (by decide)⟩

/-- C9: `SqlxFileMigration` reads each named file eagerly at
construction time: a failed open/read of a non-empty path makes
construction itself fail (the Go code panics, so the program cannot
continue with a half-built registry), and a successfully constructed
step's action executes exactly the bytes read at construction. -/
theorem C9_SqlxFileMigration_eager {W : Type} (execQ : String → W → Option W)
    (fs : String → Option String) (id up down : String) :
    (up ≠ "" → fs up = none → SqlxFileMigration execQ fs id up down = none) ∧
    (down ≠ "" → fs down = none → SqlxFileMigration execQ fs id up down = none) ∧
    (∀ c step, up ≠ "" → fs up = some c →
      SqlxFileMigration execQ fs id up down = some step →
      step.Migrate = some (fun w => execQ c w)) ∧
    (∀ c step, down ≠ "" → fs down = some c →
      SqlxFileMigration execQ fs id up down = some step →
      step.Rollback = some (fun w => execQ c w)) := by
  refine ⟨?_, ?_, ?_, ?_⟩
  · intro hu hfu
    simp [SqlxFileMigration, hu, hfu]
  · intro hd hfd
    by_cases hu : up = ""
    · simp [SqlxFileMigration, hu, hd, hfd]
    · cases hfu : fs up with
      | none => simp [SqlxFileMigration, hu, hfu]
      | some c => simp [SqlxFileMigration, hu, hfu, hd, hfd]
  · intro c step hu hfu hstep
    by_cases hd : down = ""
    · simp [SqlxFileMigration, hu, hfu, hd] at hstep
      rw [← hstep]
    · cases hfd : fs down with
      | none => simp [SqlxFileMigration, hu, hfu, hd, hfd] at hstep
      | some c' =>
        simp [SqlxFileMigration, hu, hfu, hd, hfd] at hstep
        rw [← hstep]
  · intro c step hd hfd hstep
    by_cases hu : up = ""
    · simp [SqlxFileMigration, hu, hd, hfd] at hstep
      rw [← hstep]
    · cases hfu : fs up with
      | none => simp [SqlxFileMigration, hu, hfu] at hstep
      | some c' =>
        simp [SqlxFileMigration, hu, hfu, hd, hfd] at hstep
        rw [← hstep]

/-- Witness for C9: a missing file makes construction fail outright. -/
theorem C9_SqlxFileMigration_eager_witness :
    ("missing.sql" : String) ≠ "" ∧ fsEx ("missing.sql") = none ∧
    SqlxFileMigration qexecEx fsEx ("001") ("missing.sql") ("") = none :=
  ⟨by decide, by decide,
    (C9_SqlxFileMigration_eager qexecEx fsEx ("001") ("missing.sql") ("")).1
      (by decide) (by decide)⟩

/-- C10: an empty string as the up (resp. down) file path yields a nil
action for that direction without attempting any file access — the
result is the same for any two file systems agreeing on the other path,
and in particular construction does not panic on account of the empty
side — so a step may be file-backed in one direction only. -/
theorem C10_SqlxFileMigration_empty_path {W : Type}
    (execQ : String → W → Option W) (id p : String) :
    (∀ fs, SqlxFileMigration execQ fs id ("") ("") =
      some { ID := id, Migrate := none, Rollback := none }) ∧
    (∀ fs fs', (p ≠ "" → fs p = fs' p) →
      SqlxFileMigration execQ fs id ("") p = SqlxFileMigration execQ fs' id ("") p ∧
      SqlxFileMigration execQ fs id p ("") = SqlxFileMigration execQ fs' id p ("")) ∧
    (∀ fs step, SqlxFileMigration execQ fs id ("") p = some step →
      step.Migrate = none) ∧
    (∀ fs step, SqlxFileMigration execQ fs id p ("") = some step →
      step.Rollback = none) ∧
    (∀ fs c, p ≠ "" → fs p = some c →
      SqlxFileMigration execQ fs id ("") p =
        some { ID := id, Migrate := none, Rollback := some (fun w => execQ c w) } ∧
      SqlxFileMigration execQ fs id p ("") =
        some { ID := id, Migrate := some (fun w => execQ c w), Rollback := none }) := by
  refine ⟨?_, ?_, ?_, ?_, ?_⟩
  · intro fs
    simp [SqlxFileMigration]
  · intro fs fs' hagree
    by_cases hp : p = ""
    · subst hp
      exact ⟨rfl, rfl⟩
    · have h := hagree hp
      constructor
      · simp [SqlxFileMigration, hp, h]
      · simp [SqlxFileMigration, hp, h]
  · intro fs step hstep
    by_cases hp : p = ""
    · subst hp
      simp [SqlxFileMigration] at hstep
      rw [← hstep]
    · cases hfp : fs p with
      | none => simp [SqlxFileMigration, hp, hfp] at hstep
      | some c =>
        simp [SqlxFileMigration, hp, hfp] at hstep
        rw [← hstep]
  · intro fs step hstep
    by_cases hp : p = ""
    · subst hp
      simp [SqlxFileMigration] at hstep
      rw [← hstep]
    · cases hfp : fs p with
      | none => simp [SqlxFileMigration, hp, hfp] at hstep
      | some c =>
        simp [SqlxFileMigration, hp, hfp] at hstep
        rw [← hstep]
  · intro fs c hp hfp
    constructor
    · simp [SqlxFileMigration, hp, hfp]
    · simp [SqlxFileMigration, hp, hfp]

/-- Witness for C10: with a file system knowing only the down path, the
step is file-backed in the down direction and has no up action. -/
theorem C10_SqlxFileMigration_empty_path_witness :
    ("up.sql" : String) ≠ "" ∧ fsEx ("up.sql") = some ("CREATE") ∧
    SqlxFileMigration qexecEx fsEx ("001") ("") ("up.sql") =
      some { ID := "001", Migrate := none,
             Rollback := some (fun w => qexecEx ("CREATE") w) } :=
  ⟨by decide, by decide,
    ((C10_SqlxFileMigration_empty_path qexecEx ("001") ("up.sql")).2.2.2.2 fsEx
      ("CREATE") (by decide) (by decide)).1⟩
